import Mathlib

/-!
Verification of the Morse repository: two front-end chat prototypes.

Part 1 models the mocked messaging interface
(`GUI/components/message-input.tsx`, `GUI/components/contact-list.tsx`,
`components/messaging-interface.tsx`) and Part 2 the socket echo page
(`frontend/page.tsx`).  JavaScript strings are modelled as Lean `String`,
`Record<string, Message[]>` as a total function with default `[]`
(matching `prev[id] || []`), and the `setTimeout` send delay as a queue of
scheduled callbacks fired by a separate event.
-/

/-- Characters removed by JavaScript `String.prototype.trim` (restricted to
the ASCII whitespace class plus NBSP, the characters that can occur here). -/
def isJsWhitespace (c : Char) : Bool :=
  c == ' ' || c == '\t' || c == '\n' || c == '\r' ||
  c == Char.ofNat 11 || c == Char.ofNat 12 || c == Char.ofNat 160

/-- Model of JavaScript `s.trim()`: strip leading and trailing whitespace. -/
def jsTrim (s : String) : String :=
  ⟨((s.data.dropWhile isJsWhitespace).reverse.dropWhile isJsWhitespace).reverse⟩

/-- Model of JavaScript `s.toLowerCase()` (ASCII letters, the only case the
contact names exercise). -/
def jsToLower (s : String) : String :=
  ⟨s.data.map Char.toLower⟩

/-- `leadsWith pat l` holds when `pat` occurs at the front of `l`. -/
def leadsWith : List Char → List Char → Bool
  | [], _ => true
  | _ :: _, [] => false
  | p :: ps, c :: cs => p == c && leadsWith ps cs

/-- `occursIn pat l`: `pat` occurs contiguously somewhere in `l`. -/
def occursIn (pat : List Char) : List Char → Bool
  | [] => pat.isEmpty
  | c :: cs => leadsWith pat (c :: cs) || occursIn pat cs

/-- Model of JavaScript `s.includes(pat)`. -/
def jsIncludes (s pat : String) : Bool :=
  occursIn pat.data s.data

/-- `Contact` from `GUI/lib/types.ts`. -/
structure Contact where
  id : String
  name : String
  avatar : String
  status : String
  lastMessage : String
  lastMessageTime : String
deriving DecidableEq, Repr

/-- `Message` from `GUI/lib/types.ts`; `timestamp` is the `Date` value in
milliseconds since the epoch. -/
structure Message where
  id : String
  content : String
  senderId : String
  timestamp : Nat
  status : String
deriving DecidableEq, Repr

/-- `filteredContacts` from `GUI/components/contact-list.tsx`:
`contacts.filter((c) => c.name.toLowerCase().includes(q.toLowerCase()))`. -/
def filteredContacts (contacts : List Contact) (searchQuery : String) : List Contact :=
  contacts.filter (fun contact => jsIncludes (jsToLower contact.name) (jsToLower searchQuery))

/-- The spec-side containment predicate: `pat` (case-lowered) is a contiguous
substring of `s` (case-lowered). -/
def ContainsCI (s pat : String) : Prop :=
  ∃ pre post, (jsToLower s).data = pre ++ (jsToLower pat).data ++ post

theorem leadsWith_iff (pat l : List Char) :
    leadsWith pat l = true ↔ ∃ post, l = pat ++ post := by
  induction pat generalizing l with
  | nil => simp [leadsWith]
  | cons p ps ih =>
    cases l with
    | nil =>
      simp [leadsWith]
    | cons c cs =>
      simp only [leadsWith, Bool.and_eq_true, beq_iff_eq, ih, List.cons_append,
        List.cons.injEq]
      constructor
      · rintro ⟨rfl, post, rfl⟩
        exact ⟨post, rfl, rfl⟩
      · rintro ⟨post, rfl, rfl⟩
        exact ⟨rfl, post, rfl⟩

theorem occursIn_iff (pat l : List Char) :
    occursIn pat l = true ↔ ∃ pre post, l = pre ++ pat ++ post := by
  induction l with
  | nil =>
    simp only [occursIn, List.isEmpty_iff]
    constructor
    · rintro rfl
      exact ⟨[], [], rfl⟩
    · rintro ⟨pre, post, h⟩
      rcases List.append_eq_nil.mp ((List.append_eq_nil.mp h.symm).1) with ⟨_, h2⟩
      exact h2
  | cons c cs ih =>
    simp only [occursIn, Bool.or_eq_true, leadsWith_iff, ih]
    constructor
    · rintro (⟨post, h⟩ | ⟨pre, post, h⟩)
      · exact ⟨[], post, by simpa using h⟩
      · exact ⟨c :: pre, post, by simp [h]⟩
    · rintro ⟨pre, post, h⟩
      cases pre with
      | nil =>
        exact Or.inl ⟨post, by simpa using h⟩
      | cons p ps =>
        simp only [List.cons_append, List.cons.injEq] at h
        exact Or.inr ⟨ps, post, h.2⟩

theorem jsIncludes_lower_iff (s pat : String) :
    jsIncludes (jsToLower s) (jsToLower pat) = true ↔ ContainsCI s pat := by
  unfold jsIncludes ContainsCI
  exact occursIn_iff _ _

/-- Demo contact "Alice" (shape of the seeded directory entries). -/
def alice : Contact :=
  { id := "c-alice", name := "Alice", avatar := "", status := "online",
    lastMessage := "", lastMessageTime := "" }

/-- Demo contact "Bob". -/
def bob : Contact :=
  { id := "c-bob", name := "Bob", avatar := "", status := "offline",
    lastMessage := "", lastMessageTime := "" }

theorem occursIn_nil_pat (l : List Char) : occursIn [] l = true := by
  cases l with
  | nil => simp [occursIn, List.isEmpty]
  | cons c cs => simp [occursIn, leadsWith]

/-- C2: the contact filter returns exactly the contacts whose display name
contains the query as a case-insensitive substring, as a sublist of the input
(hence in original order); the empty query returns the full list; a query
matching no name returns the empty list. -/
theorem contact_filter_spec (contacts : List Contact) (q : String) :
    (filteredContacts contacts q).Sublist contacts ∧
    (∀ c, c ∈ filteredContacts contacts q ↔ c ∈ contacts ∧ ContainsCI c.name q) ∧
    filteredContacts contacts "" = contacts ∧
    ((∀ c ∈ contacts, ¬ ContainsCI c.name q) → filteredContacts contacts q = []) := by
  refine ⟨List.filter_sublist contacts, ?_, ?_, ?_⟩
  · intro c
    rw [filteredContacts, List.mem_filter, jsIncludes_lower_iff]
  · rw [filteredContacts, List.filter_eq_self]
    intro c _
    exact occursIn_nil_pat _
  · intro h
    rw [filteredContacts, List.filter_eq_nil_iff]
    intro c hc
    rw [Bool.not_eq_true, ← Bool.not_eq_true, jsIncludes_lower_iff]
    exact h c hc

/-- Witness for C2 at the concrete directory `[alice, bob]` and the
no-match query "zq". -/
theorem contact_filter_spec_witness :
    filteredContacts [alice, bob] "zq" = [] := by
  apply (contact_filter_spec [alice, bob] "zq").2.2.2
  intro c hc
  rw [← jsIncludes_lower_iff]
  simp only [List.mem_cons, List.not_mem_nil, or_false] at hc
  rcases hc with rfl | rfl <;> decide

/-- The decimal rendering of a natural number, modelling how JavaScript
prints an integer inside a template literal (`` `msg-${Date.now()}` ``). -/
def natDecimal (n : Nat) : String :=
  if n = 0 then "0"
  else ⟨((Nat.digits 10 n).map (fun d => Char.ofNat (48 + d))).reverse⟩

/-- The message identifier `` `msg-${Date.now()}` `` built by
`handleSendMessage` in `components/messaging-interface.tsx`. -/
def msgId (now : Nat) : String :=
  "msg-" ++ natDecimal now

/-- The `newMessage` record built by `handleSendMessage`:
`{id, content, senderId: "me", timestamp, status: "sent"}`. -/
def newMessage (now : Nat) (content : String) : Message :=
  { id := msgId now, content := content, senderId := "me",
    timestamp := now, status := "sent" }

/-- Keyboard event fields read by `handleKeyDown`
(plus the other modifier flags a browser event carries). -/
structure KeyEvent where
  key : String
  shiftKey : Bool
  ctrlKey : Bool
  altKey : Bool
  metaKey : Bool
deriving DecidableEq, Repr

/-- Combined UI state of `MessagingInterface` (contacts, messages,
selectedContact, showSidebar) and `MessageInput` (message, isSending).
`pending` models the `setTimeout` callbacks scheduled by `handleSend` but not
yet fired, each holding the captured draft text. -/
structure AppState where
  contacts : List Contact
  messages : String → List Message
  selectedContact : Option Contact
  showSidebar : Bool
  message : String
  isSending : Bool
  pending : List String

/-- `handleSendMessage` from `components/messaging-interface.tsx`:
rejects when no contact is selected or the content is blank, otherwise
appends `newMessage` to the selected contact's entry of the record
(`{...prev, [id]: [...(prev[id] || []), newMessage]}`). -/
def handleSendMessage (now : Nat) (content : String) (s : AppState) : AppState :=
  match s.selectedContact with
  | none => s
  | some c =>
    if jsTrim content = "" then s
    else
      { s with
        messages := fun k =>
          if k = c.id then s.messages k ++ [newMessage now content]
          else s.messages k }

/-- `handleSend` from `GUI/components/message-input.tsx`: when the trimmed
draft is non-empty, set `isSending` and schedule a `setTimeout` callback that
captures the current draft. -/
def handleSend (s : AppState) : AppState :=
  if jsTrim s.message = "" then s
  else { s with isSending := true, pending := s.pending ++ [s.message] }

/-- Firing of one scheduled `setTimeout` callback from `handleSend`: run
`onSendMessage(message)` (i.e. `handleSendMessage`) with the captured text,
then `setMessage("")` and `setIsSending(false)`.  `now` is `Date.now()` at
the moment the callback runs. -/
def fireTimeout (now : Nat) (s : AppState) : AppState :=
  match s.pending with
  | [] => s
  | content :: rest =>
    let s1 := handleSendMessage now content s
    { s1 with message := "", isSending := false, pending := rest }

/-- `handleKeyDown` from `GUI/components/message-input.tsx`: Enter without
Shift calls `preventDefault` and `handleSend`; otherwise the browser default
runs, which for Enter inserts a newline into the textarea (modelled at the
end of the draft). -/
def handleKeyDown (e : KeyEvent) (s : AppState) : AppState :=
  if e.key = "Enter" ∧ e.shiftKey = false then handleSend s
  else if e.key = "Enter" then { s with message := s.message ++ "\n" }
  else s

/-- A click on the send button: `onClick={handleSend}` guarded by
`disabled={!message.trim() || isSending}` (a disabled button does nothing). -/
def clickSendButton (s : AppState) : AppState :=
  if jsTrim s.message = "" ∨ s.isSending = true then s
  else handleSend s

/-- `handleContactClick` from `GUI/components/contact-list.tsx` wired to
`MessagingInterface`: `onSelectContact = setSelectedContact` and
`onCloseSidebar = () => isMobile && setShowSidebar(false)`. -/
def handleContactClick (isMobile : Bool) (c : Contact) (s : AppState) : AppState :=
  { s with
    selectedContact := some c,
    showSidebar := if isMobile then false else s.showSidebar }

/-- A click of the mobile menu button: `setShowSidebar(!showSidebar)`. -/
def toggleSidebar (s : AppState) : AppState :=
  { s with showSidebar := !s.showSidebar }

/-- The discrete UI events that mutate the modelled state. -/
inductive Event where
  | setMessage (t : String)
  | clickSend
  | keyDown (e : KeyEvent)
  | timeoutFire (now : Nat)
  | selectContact (isMobile : Bool) (c : Contact)
  | toggle
deriving Repr

/-- One step of the UI event loop. -/
def step (e : Event) (s : AppState) : AppState :=
  match e with
  | .setMessage t => { s with message := t }
  | .clickSend => clickSendButton s
  | .keyDown k => handleKeyDown k s
  | .timeoutFire now => fireTimeout now s
  | .selectContact m c => handleContactClick m c s
  | .toggle => toggleSidebar s

/-- Running a sequence of events. -/
def run (evs : List Event) (s : AppState) : AppState :=
  evs.foldl (fun st e => step e st) s

/-- Initial state of `MessagingInterface` for the demo directory: first
contact selected, sidebar shown, empty draft, no send in flight; the seeded
message store (`initialMessages`, whose mock-data module is not part of the
sources) is taken empty. -/
def initState : AppState :=
  { contacts := [alice, bob]
    messages := fun _ => []
    selectedContact := some alice
    showSidebar := true
    message := ""
    isSending := false
    pending := [] }

/-- C1: an accepted submit (non-blank draft, contact selected) delivers, when
its scheduled callback fires, exactly one new Message to the selected
contact's conversation, with `senderId = "me"` and `status = "sent"`, and the
draft and sending flag are cleared. -/
theorem accepted_submit_appends (s : AppState) (now : Nat) (c : Contact)
    (hsel : s.selectedContact = some c) (hne : jsTrim s.message ≠ "")
    (hp : s.pending = []) :
    (fireTimeout now (handleSend s)).messages c.id
      = s.messages c.id ++
        [{ id := msgId now, content := s.message, senderId := "me",
           timestamp := now, status := "sent" }] ∧
    ((fireTimeout now (handleSend s)).messages c.id).length
      = (s.messages c.id).length + 1 ∧
    (fireTimeout now (handleSend s)).message = "" ∧
    (fireTimeout now (handleSend s)).isSending = false := by
  have hsend : handleSend s
      = { s with isSending := true, pending := s.pending ++ [s.message] } := by
    rw [handleSend, if_neg hne]
  rw [hsend, hp]
  refine ⟨?_, ?_, ?_, ?_⟩ <;>
    simp [fireTimeout, handleSendMessage, hsel, hne, newMessage]

/-- Witness for C1: submitting the draft "hi" from the initial state. -/
theorem accepted_submit_appends_witness :
    (fireTimeout 5 (handleSend { initState with message := "hi" })).messages alice.id
      = initState.messages alice.id ++
        [{ id := msgId 5, content := "hi", senderId := "me",
           timestamp := 5, status := "sent" }] :=
  (accepted_submit_appends { initState with message := "hi" } 5 alice rfl
    (by decide) rfl).1

/-- C5: a store-level submit changes only the selected contact's
conversation: the new Message is appended at the end with all prior entries
preserved unchanged, and every other key's message sequence is untouched. -/
theorem submit_frame (s : AppState) (now : Nat) (content : String) (c : Contact)
    (hsel : s.selectedContact = some c) (hne : jsTrim content ≠ "") :
    (handleSendMessage now content s).messages c.id
      = s.messages c.id ++ [newMessage now content] ∧
    (∀ k, k ≠ c.id → (handleSendMessage now content s).messages k = s.messages k) := by
  simp only [handleSendMessage, hsel, if_neg hne]
  constructor
  · simp
  · intro k hk
    simp [hk]

/-- Witness for C5: sending "yo" to alice leaves bob's conversation
unchanged. -/
theorem submit_frame_witness :
    (handleSendMessage 9 "yo" initState).messages bob.id
      = initState.messages bob.id :=
  (submit_frame initState 9 "yo" alice rfl (by decide)).2 bob.id (by decide)

/-- C6: a submit with a blank draft or with no contact selected changes no
conversation anywhere, silently; at the composer level a blank draft makes
`handleSend` a complete no-op. -/
theorem rejected_submit_no_message (s : AppState) (now : Nat) (content : String)
    (h : jsTrim content = "" ∨ s.selectedContact = none) :
    (∀ k, (handleSendMessage now content s).messages k = s.messages k) ∧
    (jsTrim s.message = "" → handleSend s = s) := by
  constructor
  · intro k
    rcases h with hb | hsel
    · unfold handleSendMessage
      cases hs : s.selectedContact with
      | none => rfl
      | some c => simp [hb]
    · unfold handleSendMessage
      rw [hsel]
  · intro hb
    rw [handleSend, if_pos hb]

/-- Witness for C6: the whitespace-only draft "   " appends nothing to
alice's conversation. -/
theorem rejected_submit_no_message_witness :
    (handleSendMessage 7 "   " initState).messages alice.id
      = initState.messages alice.id :=
  (rejected_submit_no_message initState 7 "   " (Or.inl (by decide))).1 alice.id

/-- An Enter keypress with no modifier held. -/
def enterPlain : KeyEvent :=
  { key := "Enter", shiftKey := false, ctrlKey := false, altKey := false,
    metaKey := false }

/-- An Enter keypress with only Ctrl held. -/
def ctrlEnter : KeyEvent :=
  { key := "Enter", shiftKey := false, ctrlKey := true, altKey := false,
    metaKey := false }

/-- C3 counterexample: with a submit in flight (`isSending = true`, sending
flag set by a first Enter), a second Enter keypress is accepted, and after
both scheduled callbacks fire the conversation holds two messages instead of
the one message that firing the single callback would have produced. -/
theorem double_enter_creates_second_message :
    (run [.setMessage "hi", .keyDown enterPlain] initState).isSending = true ∧
    ((run [.setMessage "hi", .keyDown enterPlain, .keyDown enterPlain,
           .timeoutFire 1000, .timeoutFire 1001] initState).messages "c-alice").length = 2 ∧
    ((run [.setMessage "hi", .keyDown enterPlain,
           .timeoutFire 1000] initState).messages "c-alice").length = 1 := by
  refine ⟨rfl, ?_, ?_⟩ <;> rfl

/-- C3 amended: a second submit during the send delay is rejected for the
send button trigger, whose `disabled={!message.trim() || isSending}` guard
makes the click a no-op whenever the sending flag is set. -/
theorem send_button_noop_while_sending (s : AppState)
    (h : s.isSending = true) :
    clickSendButton s = s := by
  rw [clickSendButton, if_pos (Or.inr h)]

/-- Witness for the amended C3: a click during an in-flight send changes
nothing. -/
theorem send_button_noop_while_sending_witness :
    clickSendButton { initState with message := "hi", isSending := true }
      = { initState with message := "hi", isSending := true } :=
  send_button_noop_while_sending
    { initState with message := "hi", isSending := true } rfl

/-- C4 counterexample: Ctrl+Enter (a modifier key held, Shift up) does not
insert a newline into the draft; it submits: the draft is unchanged, a send
is scheduled and the sending flag is set. -/
theorem ctrl_enter_submits :
    (handleKeyDown ctrlEnter { initState with message := "hi" }).message = "hi" ∧
    (handleKeyDown ctrlEnter { initState with message := "hi" }).pending = ["hi"] ∧
    (handleKeyDown ctrlEnter { initState with message := "hi" }).isSending = true := by
  refine ⟨rfl, rfl, rfl⟩

/-- C4 amended: Enter submits exactly when Shift is not held — the other
modifiers (Ctrl, Alt, Meta) are ignored by `handleKeyDown` — and Shift+Enter
inserts a literal newline into the draft instead of submitting. -/
theorem enter_key_submit_depends_only_on_shift (e : KeyEvent) (s : AppState)
    (hk : e.key = "Enter") :
    (e.shiftKey = false → jsTrim s.message ≠ "" →
      (handleKeyDown e s).pending = s.pending ++ [s.message] ∧
      (handleKeyDown e s).isSending = true ∧
      (handleKeyDown e s).message = s.message) ∧
    (e.shiftKey = true →
      handleKeyDown e s = { s with message := s.message ++ "\n" }) := by
  constructor
  · intro hs hne
    rw [handleKeyDown, if_pos ⟨hk, hs⟩, handleSend, if_neg hne]
    exact ⟨rfl, rfl, rfl⟩
  · intro hs
    rw [handleKeyDown, if_neg (by simp [hs]), if_pos hk]

/-- Witness for the amended C4: Ctrl+Enter on the draft "hi" schedules a
send. -/
theorem enter_key_submit_depends_only_on_shift_witness :
    (handleKeyDown ctrlEnter { initState with message := "hi" }).isSending = true :=
  ((enter_key_submit_depends_only_on_shift ctrlEnter
    { initState with message := "hi" } rfl).1 rfl (by decide)).2.1

/-- C9 counterexample: on mobile with the sidebar open, clicking the already
selected contact is not a no-op — the click collapses the sidebar. -/
theorem reselect_closes_mobile_sidebar :
    (handleContactClick true alice initState).selectedContact
        = initState.selectedContact ∧
    (handleContactClick true alice initState).showSidebar = false ∧
    initState.showSidebar = true ∧
    handleContactClick true alice initState ≠ initState := by
  refine ⟨rfl, rfl, rfl, ?_⟩
  intro h
  have hb := congrArg AppState.showSidebar h
  simp [handleContactClick, initState] at hb

/-- C9 amended: re-selecting the currently selected contact never changes the
selection or the message store, and on desktop it is a complete no-op; on
mobile the click additionally collapses the sidebar, so selection is
idempotent (clicking the same contact twice equals clicking it once) rather
than effect-free. -/
theorem select_contact_idempotent (m : Bool) (c : Contact) (s : AppState)
    (hsel : s.selectedContact = some c) :
    (handleContactClick m c s).selectedContact = s.selectedContact ∧
    (handleContactClick m c s).messages = s.messages ∧
    (m = false → handleContactClick m c s = s) ∧
    handleContactClick m c (handleContactClick m c s)
      = handleContactClick m c s := by
  refine ⟨by rw [hsel]; rfl, rfl, ?_, ?_⟩
  · intro hm
    subst hm
    cases s
    simp_all [handleContactClick]
  · cases m <;> rfl

/-- Witness for the amended C9: on desktop, re-clicking alice in the initial
state changes nothing. -/
theorem select_contact_idempotent_witness :
    handleContactClick false alice initState = initState :=
  (select_contact_idempotent false alice initState rfl).2.2.1 rfl

theorem toNat_digitChar (d : Nat) (hd : d < 10) :
    (Char.ofNat (48 + d)).toNat = 48 + d := by
  have hv : (48 + d).isValidChar := Or.inl (by omega)
  rw [Char.ofNat, dif_pos hv]
  simp [Char.ofNatAux, Char.toNat, UInt32.toNat, BitVec.toNat_ofNatLt]

theorem digitChar_inj {d e : Nat} (hd : d < 10) (he : e < 10)
    (h : Char.ofNat (48 + d) = Char.ofNat (48 + e)) : d = e := by
  have h2 := congrArg Char.toNat h
  rw [toNat_digitChar d hd, toNat_digitChar e he] at h2
  omega

theorem map_digitChar_inj :
    ∀ (l1 l2 : List Nat), (∀ d ∈ l1, d < 10) → (∀ d ∈ l2, d < 10) →
      l1.map (fun d => Char.ofNat (48 + d)) = l2.map (fun d => Char.ofNat (48 + d)) →
      l1 = l2
  | [], [], _, _, _ => rfl
  | [], _ :: _, _, _, h => by simp at h
  | _ :: _, [], _, _, h => by simp at h
  | d :: ds, e :: es, h1, h2, h => by
    simp only [List.map_cons, List.cons.injEq] at h
    have hde : d = e :=
      digitChar_inj (h1 d (List.mem_cons_self d ds)) (h2 e (List.mem_cons_self e es)) h.1
    subst hde
    rw [map_digitChar_inj ds es (fun x hx => h1 x (List.mem_cons_of_mem _ hx))
      (fun x hx => h2 x (List.mem_cons_of_mem _ hx)) h.2]

theorem natDecimal_ne_zero_repr {b : Nat} (hb : b ≠ 0) : natDecimal b ≠ "0" := by
  intro h
  have hdata := congrArg String.data h
  rw [natDecimal, if_neg hb] at hdata
  have hmap : (Nat.digits 10 b).map (fun d => Char.ofNat (48 + d)) = ['0'] := by
    have := congrArg List.reverse hdata
    simpa using this
  cases hdig : Nat.digits 10 b with
  | nil =>
    rw [hdig] at hmap
    simp at hmap
  | cons d ds =>
    rw [hdig] at hmap
    simp only [List.map_cons, List.cons.injEq, List.map_eq_nil_iff] at hmap
    have hd10 : d < 10 :=
      Nat.digits_lt_base (by norm_num) (hdig ▸ List.mem_cons_self d ds)
    have hd0 : d = 0 := by
      have h0 : Char.ofNat (48 + d) = Char.ofNat (48 + 0) := by
        rw [hmap.1]
      exact digitChar_inj hd10 (by norm_num) h0
    have hb0 := Nat.ofDigits_digits 10 b
    rw [hdig, hmap.2, hd0] at hb0
    simp [Nat.ofDigits] at hb0
    exact hb (hb0.symm)

theorem natDecimal_inj {a b : Nat} (h : natDecimal a = natDecimal b) : a = b := by
  by_cases ha : a = 0 <;> by_cases hb : b = 0
  · rw [ha, hb]
  · subst ha
    exact absurd h.symm (natDecimal_ne_zero_repr hb)
  · subst hb
    exact absurd h (natDecimal_ne_zero_repr ha)
  · have hdata := congrArg String.data h
    rw [natDecimal, if_neg ha, natDecimal, if_neg hb] at hdata
    have hmap := List.reverse_inj.mp hdata
    have hdig := map_digitChar_inj _ _
      (fun d hd => Nat.digits_lt_base (by norm_num) hd)
      (fun d hd => Nat.digits_lt_base (by norm_num) hd) hmap
    exact Nat.digits_inj_iff.mp hdig

theorem msgId_inj {n m : Nat} (h : msgId n = msgId m) : n = m := by
  have hd := congrArg String.data h
  simp only [msgId, String.data_append] at hd
  exact natDecimal_inj (String.ext (List.append_cancel_left hd))

/-- The id-wellformedness invariant of the message store: every stored
message's id is `msg-` followed by its creation time. -/
def StoreIdWF (s : AppState) : Prop :=
  ∀ k, ∀ m ∈ s.messages k, m.id = msgId m.timestamp

theorem handleSendMessage_eq_none (now : Nat) (content : String) (s : AppState)
    (hs : s.selectedContact = none) :
    handleSendMessage now content s = s := by
  unfold handleSendMessage
  rw [hs]

theorem handleSendMessage_eq_some (now : Nat) (content : String) (s : AppState)
    (c : Contact) (hs : s.selectedContact = some c) :
    handleSendMessage now content s =
      if jsTrim content = "" then s
      else
        { s with
          messages := fun k =>
            if k = c.id then s.messages k ++ [newMessage now content]
            else s.messages k } := by
  unfold handleSendMessage
  rw [hs]

theorem storeIdWF_handleSendMessage (now : Nat) (content : String)
    (s : AppState) (h : StoreIdWF s) :
    StoreIdWF (handleSendMessage now content s) := by
  cases hs : s.selectedContact with
  | none =>
    rw [handleSendMessage_eq_none now content s hs]
    exact h
  | some c =>
    rw [handleSendMessage_eq_some now content s c hs]
    by_cases hb : jsTrim content = ""
    · rw [if_pos hb]
      exact h
    · rw [if_neg hb]
      intro k m hm
      have hm2 : m ∈ (if k = c.id then s.messages k ++ [newMessage now content]
          else s.messages k) := hm
      by_cases hk : k = c.id
      · rw [if_pos hk] at hm2
        rcases List.mem_append.mp hm2 with h1 | h1
        · exact h k m h1
        · rw [List.mem_singleton] at h1
          subst h1
          rfl
      · rw [if_neg hk] at hm2
        exact h k m hm2

theorem handleSend_messages (s : AppState) :
    (handleSend s).messages = s.messages := by
  unfold handleSend
  split <;> rfl

theorem clickSendButton_messages (s : AppState) :
    (clickSendButton s).messages = s.messages := by
  unfold clickSendButton
  split
  · rfl
  · exact handleSend_messages s

theorem handleKeyDown_messages (e : KeyEvent) (s : AppState) :
    (handleKeyDown e s).messages = s.messages := by
  unfold handleKeyDown
  split
  · exact handleSend_messages s
  · split <;> rfl

theorem storeIdWF_of_messages_eq {t s : AppState} (h : StoreIdWF s)
    (he : t.messages = s.messages) : StoreIdWF t := by
  intro k m hm
  rw [he] at hm
  exact h k m hm

theorem fireTimeout_eq_nil (now : Nat) (s : AppState) (hp : s.pending = []) :
    fireTimeout now s = s := by
  unfold fireTimeout
  rw [hp]

theorem fireTimeout_eq_cons (now : Nat) (s : AppState) (content : String)
    (rest : List String) (hp : s.pending = content :: rest) :
    fireTimeout now s =
      { handleSendMessage now content s with
        message := "", isSending := false, pending := rest } := by
  unfold fireTimeout
  rw [hp]

theorem storeIdWF_fireTimeout (now : Nat) (s : AppState) (h : StoreIdWF s) :
    StoreIdWF (fireTimeout now s) := by
  cases hp : s.pending with
  | nil =>
    rw [fireTimeout_eq_nil now s hp]
    exact h
  | cons content rest =>
    rw [fireTimeout_eq_cons now s content rest hp]
    exact storeIdWF_of_messages_eq (storeIdWF_handleSendMessage now content s h) rfl

theorem storeIdWF_step (e : Event) (s : AppState) (h : StoreIdWF s) :
    StoreIdWF (step e s) := by
  cases e with
  | setMessage t => exact h
  | clickSend => exact storeIdWF_of_messages_eq h (clickSendButton_messages s)
  | keyDown k => exact storeIdWF_of_messages_eq h (handleKeyDown_messages k s)
  | timeoutFire now => exact storeIdWF_fireTimeout now s h
  | selectContact m c => exact h
  | toggle => exact h

theorem storeIdWF_run (evs : List Event) (s : AppState) (h : StoreIdWF s) :
    StoreIdWF (run evs s) := by
  induction evs generalizing s with
  | nil => exact h
  | cons e es ih => exact ih (step e s) (storeIdWF_step e s h)

/-- C7 counterexample: two submits both delivered at `Date.now() = 1000`
(the same millisecond) produce, in a reachable state, two Messages in
alice's conversation whose ids are both `msg-1000`: ids are not unique
within a conversation. -/
theorem duplicate_message_ids_reachable :
    (run [.setMessage "hi", .clickSend, .timeoutFire 1000,
          .setMessage "yo", .clickSend, .timeoutFire 1000] initState).messages "c-alice"
      = [newMessage 1000 "hi", newMessage 1000 "yo"] ∧
    ¬ (((run [.setMessage "hi", .clickSend, .timeoutFire 1000,
              .setMessage "yo", .clickSend, .timeoutFire 1000]
          initState).messages "c-alice").map Message.id).Nodup := by
  refine ⟨rfl, ?_⟩
  have he : (run [.setMessage "hi", .clickSend, .timeoutFire 1000,
      .setMessage "yo", .clickSend, .timeoutFire 1000] initState).messages "c-alice"
      = [newMessage 1000 "hi", newMessage 1000 "yo"] := rfl
  rw [he]
  simp [newMessage]

/-- C7 amended: in every reachable store state, message ids within a
conversation are unique provided the messages' creation times are pairwise
distinct; ids are `msg-` + creation time, so two messages created in the
same millisecond share an id. -/
theorem message_ids_unique_of_distinct_times (evs : List Event) (k : String)
    (hdist : ((run evs initState).messages k).Pairwise
      (fun a b => a.timestamp ≠ b.timestamp)) :
    (((run evs initState).messages k).map Message.id).Nodup := by
  have hwf : StoreIdWF (run evs initState) :=
    storeIdWF_run evs initState (fun _ m hm => absurd hm (List.not_mem_nil m))
  rw [List.Nodup, List.pairwise_map]
  refine List.Pairwise.imp_of_mem ?_ hdist
  intro a b ha hb hne hid
  apply hne
  apply msgId_inj
  rw [← hwf k a ha, ← hwf k b hb]
  exact hid

/-- Witness for the amended C7: two submits delivered at distinct times 1000
and 2000 give distinct ids. -/
theorem message_ids_unique_of_distinct_times_witness :
    (((run [.setMessage "hi", .clickSend, .timeoutFire 1000,
            .setMessage "yo", .clickSend, .timeoutFire 2000]
        initState).messages "c-alice").map Message.id).Nodup :=
  message_ids_unique_of_distinct_times
    [.setMessage "hi", .clickSend, .timeoutFire 1000,
     .setMessage "yo", .clickSend, .timeoutFire 2000] "c-alice" (by
      have he : (run [.setMessage "hi", .clickSend, .timeoutFire 1000,
          .setMessage "yo", .clickSend, .timeoutFire 2000]
            initState).messages "c-alice"
          = [newMessage 1000 "hi", newMessage 2000 "yo"] := rfl
      rw [he]
      simp [newMessage])

/-- State of the socket echo page `frontend/page.tsx`: the draft `msg` and
the flat transcript `messages`. -/
structure EchoState where
  msg : String
  messages : List String
deriving DecidableEq, Repr

/-- `send` from `frontend/page.tsx`: a draft that trims to empty is ignored;
otherwise the raw draft is emitted over the socket
(`socket.emit("message", msg)`, returned as the second component), the line
`"You: " + msg` is appended to the transcript, and the draft is cleared. -/
def send (s : EchoState) : EchoState × Option String :=
  if jsTrim s.msg = "" then (s, none)
  else ({ msg := "", messages := s.messages ++ ["You: " ++ s.msg] }, some s.msg)

/-- The `socket.on("receive")` handler from `frontend/page.tsx`: an inbound
event with payload `{text}` appends `"Friend: " + text`. -/
def receiveEvent (text : String) (s : EchoState) : EchoState :=
  { s with messages := s.messages ++ ["Friend: " ++ text] }

/-- C8: submitting non-blank local text immediately appends the transcript
line `"You: " + msg` at the end (the emission happens in the same step, with
no acknowledgement awaited), and an inbound receive event with payload text
appends `"Friend: " + text` at the end. -/
theorem echo_transcript_append (s : EchoState) (t : String)
    (hne : jsTrim s.msg ≠ "") :
    (send s).1.messages = s.messages ++ ["You: " ++ s.msg] ∧
    (send s).2 = some s.msg ∧
    (send s).1.msg = "" ∧
    (receiveEvent t s).messages = s.messages ++ ["Friend: " ++ t] := by
  rw [send, if_neg hne]
  exact ⟨rfl, rfl, rfl, rfl⟩

/-- Witness for C8: the spec's own examples "hello" and "hey". -/
theorem echo_transcript_append_witness :
    (send { msg := "hello", messages := [] }).1.messages = ["You: hello"] ∧
    (receiveEvent "hey" { msg := "hello", messages := [] }).messages
      = ["Friend: hey"] :=
  ⟨(echo_transcript_append { msg := "hello", messages := [] } "hey" (by decide)).1,
   (echo_transcript_append { msg := "hello", messages := [] } "hey"
     (by decide)).2.2.2⟩

/-- C10: the content delivered by an accepted submit is the raw draft, not
the trimmed draft: the GUI prototype stores the draft text verbatim in the
new Message, and the echo prototype emits the raw draft and shows it
verbatim in the transcript line. -/
theorem submit_preserves_raw_content (s : AppState) (now : Nat) (c : Contact)
    (es : EchoState) (hsel : s.selectedContact = some c)
    (hne : jsTrim s.message ≠ "") (hp : s.pending = [])
    (hee : jsTrim es.msg ≠ "") :
    (fireTimeout now (handleSend s)).messages c.id
      = s.messages c.id ++ [newMessage now s.message] ∧
    (newMessage now s.message).content = s.message ∧
    (send es).2 = some es.msg ∧
    (send es).1.messages = es.messages ++ ["You: " ++ es.msg] := by
  have hsend : handleSend s
      = { s with isSending := true, pending := s.pending ++ [s.message] } := by
    rw [handleSend, if_neg hne]
  refine ⟨?_, rfl, ?_, ?_⟩
  · rw [hsend, hp]
    simp [fireTimeout, handleSendMessage, hsel, hne]
  · rw [send, if_neg hee]
  · rw [send, if_neg hee]

/-- Witness for C10: the draft " hi " (and echo draft " yo ") pass the
whitespace guard and are delivered with their surrounding spaces intact. -/
theorem submit_preserves_raw_content_witness :
    (fireTimeout 4 (handleSend { initState with message := " hi " })).messages alice.id
      = initState.messages alice.id ++ [newMessage 4 " hi "] ∧
    (send { msg := " yo ", messages := [] }).2 = some " yo " :=
  ⟨(submit_preserves_raw_content { initState with message := " hi " } 4 alice
      { msg := " yo ", messages := [] } rfl (by decide) rfl (by decide)).1,
   (submit_preserves_raw_content { initState with message := " hi " } 4 alice
      { msg := " yo ", messages := [] } rfl (by decide) rfl (by decide)).2.2.1⟩
